import Mathlib

/-!
Verification of the amazon-size-scraper specification against a shallow
embedding of the repository's Go sources.

The embedding covers:
* the size-table parsers
  (`internal/scraper/product_scraper.go` and the size-chart service in
  `unnamed/part_019`),
* the outbox repository (`internal/database/product_lifecycle.go`),
* the job worker's persistence sequence
  (`internal/amazon-scraper/jobs/worker.go` together with the event
  publisher in `unnamed/part_018`),
* the lifecycle consumer (`cmd/lifecycle-consumer/main.go`).

Numeric cell values (Go `float64`) are modelled as `ℚ`; all values that
occur in the parsers are small decimal fractions, for which `float64`
arithmetic is exact. Go maps are modelled as association lists with
replace-on-collision insertion; key-set semantics coincide with Go's.
`String.toLower`/`String.toUpper` in the model are ASCII-only, which
agrees with Go on every string the claims touch.
-/

namespace SizeScraper

/-! ## Basic string helpers shared by both parsers -/

/-- ASCII substring test, modelling Go `strings.Contains`.
`listHasPre pat s` holds when `pat` is an initial segment of `s`. -/
def listHasPre : List Char → List Char → Bool
  | [], _ => true
  | _ :: _, [] => false
  | a :: as, b :: bs => a = b && listHasPre as bs

/-- Source: `listHasSub pat s` holds when `pat` occurs contiguously inside `s`. -/
def listHasSub (pat : List Char) : List Char → Bool
  | [] => pat.isEmpty
  | c :: rest => listHasPre pat (c :: rest) || listHasSub pat rest

/-- Go `strings.Contains s pat`. -/
def containsSub (s pat : String) : Bool := listHasSub pat.data s.data

/-- Go `strings.TrimSpace` (the built-in `String.trim` does not reduce in
the kernel, so the model re-implements it over the character list). -/
def trimS (s : String) : String :=
  String.mk
    (((s.data.dropWhile Char.isWhitespace).reverse.dropWhile
        Char.isWhitespace).reverse)

/-- Go `strings.ToUpper`, ASCII. -/
def upperS (s : String) : String := String.mk (s.data.map Char.toUpper)

/-- Go `strings.ToLower`, ASCII. -/
def lowerS (s : String) : String := String.mk (s.data.map Char.toLower)

/-- Character membership, modelling Go `strings.Contains(s, "-")`. -/
def hasChar (s : String) (c : Char) : Bool := s.data.contains c

/-- Split on a separator character, modelling Go `strings.Split` with a
one-character separator. -/
def splitCharAux (sep : Char) : List Char → List Char → List (List Char)
  | [], acc => [acc.reverse]
  | c :: cs, acc =>
    if c = sep then acc.reverse :: splitCharAux sep cs []
    else splitCharAux sep cs (c :: acc)

/-- Go `strings.Split s (String.singleton sep)`. -/
def splitChar (s : String) (sep : Char) : List String :=
  (splitCharAux sep s.data []).map String.mk

/-- Source: `isSizeLabel` from `product_scraper.go` (an identical copy lives in
`unnamed/part_019`): trim, upper-case, and compare against the closed
lexicon of size labels. -/
def isSizeLabel (s : String) : Bool :=
  let u := upperS (trimS s)
  ["XS", "S", "M", "L", "XL", "XXL", "XXXL", "3XL", "4XL", "5XL", "6XL"].any
    (fun label => u = label)

/-! ## Numeric cell parsing

Two distinct routines exist in the source.

`product_scraper.go` `parseValue`: on a range it averages the two halves;
otherwise it strips every character except digits, `,` and `.`, replaces
the first `,` by `.`, and runs `strconv.ParseFloat` (full-string parse,
`0` on error).

`unnamed/part_019` `parseValue`: on a range it returns the second half
when that parses positive; otherwise it keeps digits and `.`, maps every
`,` to `.`, and runs `fmt.Sscanf "%f"` (longest-valid-prefix parse, `0`
when no prefix parses). -/

/-- Value of a block of ASCII digits. -/
def digitsToNat (ds : List Char) : ℕ :=
  ds.foldl (fun n c => 10 * n + (c.toNat - 48)) 0

/-- Rational value of `intPart.fracPart`, built with a single `mkRat` so
that the kernel can evaluate it (`Rat.add`/`Rat.div` are irreducible). -/
def decimalValue (intPart fracPart : List Char) : ℚ :=
  mkRat (digitsToNat intPart * 10 ^ fracPart.length + digitsToNat fracPart)
    (10 ^ fracPart.length)

/-- Source: `strconv.ParseFloat` restricted to the character set that survives the
cleaning step (digits, `.`, and any commas left untouched): the whole
string must be `digit* (. digit*)?` with at least one digit. -/
def parseFloatFull (cs : List Char) : Option ℚ :=
  let intPart := cs.takeWhile Char.isDigit
  let rest := cs.dropWhile Char.isDigit
  match rest with
  | [] => if intPart.isEmpty then none else some (decimalValue intPart [])
  | '.' :: rest2 =>
    let fracPart := rest2.takeWhile Char.isDigit
    let rest3 := rest2.dropWhile Char.isDigit
    if rest3.isEmpty && !(intPart.isEmpty && fracPart.isEmpty) then
      some (decimalValue intPart fracPart)
    else none
  | _ => none

/-- Source: `fmt.Sscanf "%f"`: read the longest `digit* (. digit*)?` token from the
front; if it contains no digit the scan fails and the result stays `0`. -/
def floatTokenValue (cs : List Char) : ℚ :=
  let intPart := cs.takeWhile Char.isDigit
  let rest := cs.dropWhile Char.isDigit
  let fracPart :=
    match rest with
    | '.' :: r2 => r2.takeWhile Char.isDigit
    | _ => []
  if intPart.isEmpty && fracPart.isEmpty then 0
  else decimalValue intPart fracPart

/-- Cleaning step of `product_scraper.go` `parseValue`: the regex
`[^\d,.]` drops everything except digits, commas and dots. -/
def cleanPS (s : String) : List Char :=
  s.data.filter (fun c => c.isDigit || c = ',' || c = '.')

/-- Source: `strings.Replace(cleaned, ",", ".", 1)`. -/
def replaceFirstComma : List Char → List Char
  | [] => []
  | c :: cs => if c = ',' then '.' :: cs else c :: replaceFirstComma cs

/-- Non-range path of `product_scraper.go` `parseValue`. -/
def parseNumPS (s : String) : ℚ :=
  (parseFloatFull (replaceFirstComma (cleanPS s))).getD 0

/-- Source: `parseValue` from `internal/scraper/product_scraper.go`. A cell
containing `-` is split; when both halves parse positive the AVERAGE of
the two is returned, otherwise the cleaning path runs on the whole text.
The recursive calls in the Go source hit halves that contain no `-`, so
they reduce to the non-range path. -/
def parseValuePS (text : String) : ℚ :=
  if hasChar text '-' then
    match splitChar text '-' with
    | [p1, p2] =>
      let val1 := parseNumPS p1
      let val2 := parseNumPS p2
      if 0 < val1 ∧ 0 < val2 then (val1 + val2) / 2 else parseNumPS text
    | _ => parseNumPS text
  else parseNumPS text

/-- Cleaning step of `unnamed/part_019` `parseValue`: keep digits and `.`,
map every `,` to `.`, drop the rest. -/
def clean019 (s : String) : List Char :=
  s.data.filterMap (fun c =>
    if c.isDigit || c = '.' then some c
    else if c = ',' then some '.' else none)

/-- Non-range path of `unnamed/part_019` `parseValue`. -/
def parseNum019 (s : String) : ℚ :=
  floatTokenValue (clean019 s)

/-- Source: `parseValue` from `unnamed/part_019`. A cell containing `-` split into
exactly two halves returns the SECOND half's value when it is positive and
the first half's value otherwise; the recursive calls hit dash-free halves
and reduce to the non-range path. -/
def parseValue019 (text : String) : ℚ :=
  if hasChar text '-' then
    match splitChar text '-' with
    | [p1, p2] =>
      let val1 := parseNum019 p1
      let val2 := parseNum019 p2
      if 0 < val2 then val2 else val1
    | _ => parseNum019 text
  else parseNum019 text

/-! ## Association-list model of Go maps

`map[string]float64` and `map[string]map[string]float64` are modelled as
association lists with replace-on-collision insertion; the key set and
lookup behaviour coincide with the Go map. -/

/-- Lookup in an association list (Go map read). -/
def lookupA {β : Type} : List (String × β) → String → Option β
  | [], _ => none
  | p :: ps, k => if p.1 = k then some p.2 else lookupA ps k

/-- Insert-or-replace in an association list (Go map write). -/
def setA {β : Type} : List (String × β) → String → β → List (String × β)
  | [], k, v => [(k, v)]
  | p :: ps, k, v => if p.1 = k then (k, v) :: ps else p :: setA ps k v

/-- The inner measurement map of one size label. -/
abbrev MeasRow := List (String × ℚ)

/-- The `measurements` field: size label → measurement key → value. -/
abbrev Meas := List (String × MeasRow)

/-- Go `sizeTable.Measurements[size][key] = v`: update the inner map of an
existing size entry. (Every call site in the parsers touches a size that
was entered into the map beforehand, so the missing-key case is
unreachable; the model leaves the map unchanged there.) -/
def setInner (m : Meas) (size key : String) (v : ℚ) : Meas :=
  match lookupA m size with
  | none => m
  | some inner => setA m size (setA inner key v)

/-- Source: `database.SizeTable`. -/
structure SizeTable where
  sizes : List String
  measurements : Meas
  unit : String
deriving DecidableEq, Repr

/-- The layout-agnostic table payload handed to the parsers by the
browser's DOM interrogation: `{headers, rows}`. -/
structure TablePayload where
  headers : List String
  rows : List (List String)
deriving DecidableEq, Repr

/-- First cell of a row (`rowData[0]`); rows are only indexed after a
length check in the source. -/
def headCell : List String → String
  | [] => ""
  | c :: _ => c

/-! ## Measurement-label canonicalization -/

/-- Source: `normalizeLabel` from `product_scraper.go`. The Go code ranges over a
map literal, whose iteration order is unspecified; the model fixes the
source-listing order. No label in the map is a substring of another label
that maps to a different key, except that a label containing both a
`länge` alias and e.g. `brust` is order-dependent in Go — no claim in
scope depends on such labels. Unrecognized labels are returned lower-cased
(they are NOT dropped). -/
def normalizeLabel (label : String) : String :=
  let l := lowerS label
  if containsSub l "länge" then "length"
  else if containsSub l "breite" then "width"
  else if containsSub l "brustumfang" then "chest"
  else if containsSub l "brust" then "chest"
  else if containsSub l "schulter" then "shoulder"
  else if containsSub l "ärmel" then "sleeve"
  else if containsSub l "höhe" then "height"
  else if containsSub l "taille" then "waist"
  else if containsSub l "hüfte" then "hip"
  else if containsSub l "laenge" then "length"
  else l

/-- The measurement-key if-chain of `unnamed/part_019`'s
`parseFullSizeTable` (both branches use the identical chain); the argument
is already lower-cased by the caller. Returns `""` for unrecognized
labels, which the caller drops. -/
def measKey019 (mt : String) : String :=
  if containsSub mt "brust" || containsSub mt "chest" then "chest"
  else if containsSub mt "länge" || containsSub mt "length" then "length"
  else if containsSub mt "schulter" || containsSub mt "shoulder" then "shoulder"
  else if containsSub mt "ärmel" || containsSub mt "sleeve" then "sleeve"
  else ""

/-! ## The part_019 parser: `parseFullSizeTable` -/

/-- Orientation detection of `parseFullSizeTable`: does any header cell
after index 0 match the size-label lexicon? (`firstRowHasSizes` in the
source.) -/
def colsDetect (t : TablePayload) : Bool :=
  (t.headers.drop 1).any (fun h => isSizeLabel h)

/-- Columns-are-sizes branch, size extraction from the header row: skip
the first column, trim each header, keep the size labels. -/
def initSizes019 (headers : List String) : List String × Meas :=
  (headers.drop 1).foldl
    (fun acc h =>
      let s := trimS h
      if isSizeLabel s then (acc.1 ++ [s], setA acc.2 s []) else acc)
    ([], [])

/-- Columns-are-sizes branch, one data row: rows with fewer than two cells
are skipped; the first cell names the measurement; values parse cell by
cell into the sizes taken from the header. -/
def colsRowStep019 (sizes : List String) (m : Meas) (row : List String) :
    Meas :=
  match row with
  | [] => m
  | [_] => m
  | c0 :: rest =>
    let key := measKey019 (lowerS c0)
    if key = "" then m
    else
      (rest.zip sizes).foldl
        (fun m' cs =>
          let v := parseValue019 cs.1
          if 0 < v then setInner m' cs.2 key v else m')
        m

/-- Rows-are-sizes branch, one data row: rows with fewer than two cells
are skipped; the first cell must be a size label; values parse cell by
cell into the measurement keys taken from the header (empty keys are
dropped). -/
def rowsRowStep019 (mtypes : List String) (acc : List String × Meas)
    (row : List String) : List String × Meas :=
  match row with
  | [] => acc
  | [_] => acc
  | c0 :: rest =>
    let sz := trimS c0
    if isSizeLabel sz then
      let m1 := setA acc.2 sz []
      let m2 :=
        (rest.zip mtypes).foldl
          (fun m' cm =>
            if cm.2 = "" then m'
            else
              let v := parseValue019 cm.1
              if 0 < v then setInner m' sz cm.2 v else m')
          m1
      (acc.1 ++ [sz], m2)
    else acc

/-- Branch body of `parseFullSizeTable` (the table built before the
final empty-sizes check). -/
def parse019Core (t : TablePayload) : SizeTable :=
  if colsDetect t then
    let init := initSizes019 t.headers
    let m := t.rows.foldl (colsRowStep019 init.1) init.2
    { sizes := init.1, measurements := m, unit := "cm" }
  else
    let mtypes := (t.headers.drop 1).map (fun h => measKey019 (lowerS h))
    let sm := t.rows.foldl (rowsRowStep019 mtypes) ([], [])
    { sizes := sm.1, measurements := sm.2, unit := "cm" }

/-- Source: `parseFullSizeTable` from `unnamed/part_019`. Returns `none` for the
Go `nil` results: empty headers, empty rows, or no size produced. -/
def parseFullSizeTable (t : TablePayload) : Option SizeTable :=
  if t.headers.isEmpty then none
  else if t.rows.isEmpty then none
  else if (parse019Core t).sizes.isEmpty then none
  else some (parse019Core t)

/-! ## The product_scraper.go parser: `parseJSTableData` -/

/-- The first data row (`rows[0]`, guarded by the emptiness check in the
caller). -/
def headRowOf : List (List String) → List String
  | [] => []
  | r :: _ => r

/-- Orientation detection of `parseJSTableData`: does ANY cell of the
FIRST DATA ROW match the size-label lexicon? (`hasSizeLabels` in the
source — note this differs from `parseFullSizeTable`'s header-based
rule.) -/
def psDetect (t : TablePayload) : Bool :=
  (headRowOf t.rows).any (fun c => isSizeLabel c)

/-- Horizontal layout (sizes in the first column), one data row: empty
rows are skipped; the trimmed first cell must be a size label; values
parse cell by cell against the normalized header labels from index 1. -/
def horizRowStepPS (mlabels : List String) (acc : List String × Meas)
    (row : List String) : List String × Meas :=
  match row with
  | [] => acc
  | c0 :: rest =>
    let sz := trimS c0
    if isSizeLabel sz then
      let m1 := setA acc.2 sz []
      let m2 :=
        (rest.zip (mlabels.drop 1)).foldl
          (fun m' cl =>
            let v := parseValuePS cl.1
            if 0 < v then setInner m' sz cl.2 v else m')
          m1
      (acc.1 ++ [sz], m2)
    else acc

/-- Vertical layout: index of the first header cell that is a size label,
defaulting to 1 when none is (`sizeColStart` in the source). -/
def sizeColStartPS (headers : List String) : ℕ :=
  match headers.findIdx? (fun h => isSizeLabel h) with
  | some i => i
  | none => 1

/-- Vertical layout, size extraction from the headers starting at
`sizeColStart`: trimmed, non-empty, size-label cells only. -/
def vertSizesPS (headers : List String) (start : ℕ) : List String × Meas :=
  (headers.drop start).foldl
    (fun acc h =>
      let s := trimS h
      if s = "" then acc
      else if isSizeLabel s then (acc.1 ++ [s], setA acc.2 s []) else acc)
    ([], [])

/-- Vertical layout, one data row: rows with fewer than two cells are
skipped; the (untrimmed) first cell is normalized to the measurement
label; values parse from column `sizeColStart` onward against the sizes
list. -/
def vertRowStepPS (start : ℕ) (sizes : List String) (m : Meas)
    (row : List String) : Meas :=
  if row.length < 2 then m
  else
    let label := normalizeLabel (headCell row)
    ((row.drop start).zip sizes).foldl
      (fun m' cs =>
        let v := parseValuePS cs.1
        if 0 < v then setInner m' cs.2 label v else m')
      m

/-- Branch body of `parseJSTableData`. -/
def psCore (t : TablePayload) : SizeTable :=
  if psDetect t then
    let mlabels := t.headers.map normalizeLabel
    let sm := t.rows.foldl (horizRowStepPS mlabels) ([], [])
    { sizes := sm.1, measurements := sm.2, unit := "cm" }
  else
    let start := sizeColStartPS t.headers
    let init := vertSizesPS t.headers start
    let m := t.rows.foldl (vertRowStepPS start init.1) init.2
    { sizes := init.1, measurements := m, unit := "cm" }

/-- Source: `parseJSTableData` from `internal/scraper/product_scraper.go`.
`none` models the error returns (invalid format, no headers, no data
rows); unlike `parseFullSizeTable` a table that yields no sizes is still
returned as an (empty) `SizeTable`. -/
def parseJSTableData (t : TablePayload) : Option SizeTable :=
  if t.headers.isEmpty then none
  else if t.rows.isEmpty then none
  else some (psCore t)

/-! ## Size-table validation and the extractor gate -/

/-- Source: `ValidateSizeTable` from `internal/database/product_lifecycle.go`:
false for a nil table, empty sizes, or empty measurements; otherwise true
iff some size entry has BOTH a `length` and a `chest` key PRESENT. Note
that the values are not inspected, only key presence. -/
def ValidateSizeTable (st : Option SizeTable) : Bool :=
  match st with
  | none => false
  | some st =>
    if st.sizes.isEmpty || st.measurements.isEmpty then false
    else
      st.measurements.any (fun p =>
        (lookupA p.2 "length").isSome && (lookupA p.2 "chest").isSome)

/-- The size-table gate at the end of `ExtractCompleteProduct`
(`internal/amazon-scraper/scraper/product_extractor.go`): a missing table
fails with "no size table found" (NO_SIZE_TABLE); a table rejected by
`ValidateSizeTable` fails with "size table missing length or chest
measurements" (NO_QUALIFYING_TABLE); otherwise the product is returned. -/
def extractCompleteProductGate (sizeTable : Option SizeTable) :
    Except String SizeTable :=
  match sizeTable with
  | none => Except.error "no size table found"
  | some st =>
    if !ValidateSizeTable (some st) then
      Except.error "size table missing length or chest measurements"
    else Except.ok st

/-- Does the extractor accept (return a product for) the given table? -/
def gateAccepts (st : Option SizeTable) : Bool :=
  match extractCompleteProductGate st with
  | Except.ok _ => true
  | Except.error _ => false

/-- Modelled from the spec's words for comparison (refinement check of
claim C4): a SizeTable is qualifying iff at least one size label has both
a POSITIVE `length` and a POSITIVE `chest` value. -/
def specQualifying (st : SizeTable) : Bool :=
  st.measurements.any (fun p =>
    (match lookupA p.2 "length" with
     | some v => decide (0 < v)
     | none => false) &&
    (match lookupA p.2 "chest" with
     | some v => decide (0 < v)
     | none => false))

/-! ## Outbox repository: status constants, MarkFailed, InsertWithTx -/

def OutboxStatusPending : String := "pending"

def OutboxStatusProcessed : String := "processed"

def OutboxStatusFailed : String := "failed"

def OutboxStatusDeadLetter : String := "dead_letter"

/-- Source: `MaxRetryCount` from `internal/database/product_lifecycle.go`. -/
def MaxRetryCount : ℕ := 5

/-- Two's-complement wrap of a 64-bit signed integer; Go's
`1 << retryCount` on `int` is `wrap64 (2 ^ retryCount)`. -/
def wrap64 (z : ℤ) : ℤ := (z + 2 ^ 63) % 2 ^ 64 - 2 ^ 63

/-- The backoff computed by `calculateNextRetryTime`:
`1 << retryCount` seconds capped at 300. -/
def backoffSeconds (n : ℕ) : ℤ :=
  let b := wrap64 (2 ^ n)
  if 300 < b then 300 else b

/-- Source: `calculateNextRetryTime` from `internal/database/product_lifecycle.go`
(time modelled as integer seconds). -/
def calculateNextRetryTime (retryCount : ℕ) (now : ℤ) : ℤ :=
  now + backoffSeconds retryCount

/-- The columns of the outbox row that `MarkFailed` writes. -/
structure MarkFailedRow where
  retryCount : ℕ
  status : String
  errorMessage : String
  nextRetryAt : ℤ
deriving DecidableEq, Repr

/-- Source: `MarkFailed` from `internal/database/product_lifecycle.go`: read the
current retry count, increment it, compute the next retry time from the
NEW count, and move to dead_letter when the new count reaches
`MaxRetryCount`. -/
def MarkFailed (retryCount : ℕ) (now : ℤ) (errMsg : String) :
    MarkFailedRow :=
  let rc := retryCount + 1
  let status :=
    if MaxRetryCount ≤ rc then OutboxStatusDeadLetter else OutboxStatusFailed
  { retryCount := rc, status := status, errorMessage := errMsg,
    nextRetryAt := calculateNextRetryTime rc now }

/-- The `OutboxEvent` struct as handed to `InsertWithTx`; `id = none`
models `uuid.Nil`, `payload = none` models a nil `json.RawMessage`
(SQL NULL). -/
structure OutboxEvent where
  id : Option String
  aggregateType : String
  aggregateId : String
  eventType : String
  payload : Option String
  targetStream : String
  status : String
  retryCount : ℕ
  nextRetryAt : Option ℤ
deriving DecidableEq, Repr

/-- An inserted `outbox_event` row. -/
structure OutboxRow where
  id : String
  aggregateType : String
  aggregateId : String
  eventType : String
  payload : String
  targetStream : String
  status : String
  retryCount : ℕ
  createdAt : ℤ
  nextRetryAt : ℤ
deriving DecidableEq, Repr

/-- Source: `InsertWithTx` from `internal/database/product_lifecycle.go` combined
with the column constraints of migration
`003_create_outbox_event_table.up.sql`: fill in the defaults (fresh id,
`status = pending`, default `target_stream`, `created_at = now`,
`next_retry_at = now`) and run the INSERT. The function itself validates
nothing; the only constraint that can reject the row is `payload JSONB
NOT NULL` when the Go `json.RawMessage` is nil — empty strings satisfy
the `VARCHAR NOT NULL` columns. `none` models the insert error. -/
def InsertWithTx (freshId : String) (now : ℤ) (e : OutboxEvent) :
    Option OutboxRow :=
  let id := match e.id with | none => freshId | some i => i
  let status := if e.status = "" then OutboxStatusPending else e.status
  let targetStream :=
    if e.targetStream = "" then "stream:product_lifecycle"
    else e.targetStream
  let nextRetryAt := match e.nextRetryAt with | none => now | some t => t
  match e.payload with
  | none => none
  | some p =>
    some ⟨id, e.aggregateType, e.aggregateId, e.eventType, p,
      targetStream, status, e.retryCount, now, nextRetryAt⟩

/-! ## Worker persistence sequence (claim C2)

`processJob` in `internal/amazon-scraper/jobs/worker.go` persists each
extracted product through `saveCompleteProduct` and then publishes the
outbox event through `publishEnhancedProductEvent` /
`PublishNewProductDetected` (`unnamed/part_018`). The database writes are
modelled as a state machine with a failure schedule: each SQL statement
is individually atomic (applied entirely or not at all), and
`PublishNewProductDetected` wraps ONLY the outbox insert in a
transaction. -/

/-- Persistent state touched by the worker's per-product writes. -/
structure WorkerDB where
  products : List String
  jobLinks : List (String × String)
  outbox : List String
deriving DecidableEq, Repr

/-- Which of the three writes fails (models DB errors per statement). -/
structure FailSpec where
  failUpsert : Bool
  failLink : Bool
  failOutbox : Bool
deriving DecidableEq, Repr

/-- Source: `InsertProductLifecycle`: `INSERT ... ON CONFLICT (asin) DO UPDATE`,
executed directly on the pool. -/
def upsertProductRow (db : WorkerDB) (asin : String) : WorkerDB :=
  { db with products :=
      if asin ∈ db.products then db.products else db.products ++ [asin] }

/-- The `job_products` link: `INSERT ... ON CONFLICT DO NOTHING`,
executed directly on the pool. -/
def insertJobLink (db : WorkerDB) (jobId asin : String) : WorkerDB :=
  { db with jobLinks :=
      if (jobId, asin) ∈ db.jobLinks then db.jobLinks
      else db.jobLinks ++ [(jobId, asin)] }

/-- Source: `saveCompleteProduct` from `worker.go`: the product upsert and the
job-product link are two separate pool-level statements — there is no
enclosing transaction, so a failing link insert leaves the completed
upsert in place. Returns the new state and whether the call succeeded. -/
def saveCompleteProduct (fs : FailSpec) (db : WorkerDB)
    (jobId asin : String) : WorkerDB × Bool :=
  if fs.failUpsert then (db, false)
  else
    let db1 := upsertProductRow db asin
    if fs.failLink then (db1, false)
    else (insertJobLink db1 jobId asin, true)

/-- Source: `PublishNewProductDetected` from `unnamed/part_018`: the outbox
insert runs in its own transaction (`db.Transaction` around
`InsertWithTx` only), so on failure the outbox is unchanged — but
nothing else is in that transaction. -/
def publishNewProductDetected (fs : FailSpec) (db : WorkerDB) :
    WorkerDB × Bool :=
  if fs.failOutbox then (db, false)
  else ({ db with outbox := db.outbox ++ ["NEW_PRODUCT_DETECTED"] }, true)

/-- The per-product persistence sequence of `processJob`: save, and only
on success publish; a publish failure is logged and the loop continues,
leaving the saved product and link in place. -/
def processProductWrites (fs : FailSpec) (db : WorkerDB)
    (jobId asin : String) : WorkerDB :=
  let r := saveCompleteProduct fs db jobId asin
  if r.2 then (publishNewProductDetected fs r.1).1 else r.1

/-- Concrete run for claim C2: all statements succeed except the outbox
append. -/
def c2FailState : WorkerDB :=
  processProductWrites ⟨false, false, true⟩ ⟨[], [], []⟩ "job-1" "B0000000AA"

/-! ## Lifecycle consumer (claims C3 and C8) -/

/-- Externally visible writes of the consumer while handling one
message. -/
inductive Effect where
  /-- Source: `UPDATE products SET size_table, status, scraped_at, updated_at`. -/
  | dbUpdateProduct (asin : String) (sizeTable : Option SizeTable)
      (newStatus : String) (setScrapedAt setUpdatedAt : Bool) : Effect
  /-- A direct `XAdd` to a stream of the bus. -/
  | busAppend (stream eventType : String) (qualityScore : Option ℚ) : Effect
  /-- An insert into the transactional outbox. -/
  | outboxAppend (eventType targetStream : String) : Effect
deriving DecidableEq, Repr

def isBusAppend : Effect → Bool
  | Effect.busAppend _ _ _ => true
  | _ => false

def isOutboxAppend : Effect → Bool
  | Effect.outboxAppend _ _ => true
  | _ => false

/-- The `hasLength` check from `cmd/lifecycle-consumer/main.go`, computed
identically in `updateProduct` and in `processMessage`: some size in the
returned table has a `length` entry with positive value. -/
def hasLengthTable (st : Option SizeTable) : Bool :=
  match st with
  | none => false
  | some st =>
    st.measurements.any (fun p =>
      match lookupA p.2 "length" with
      | some l => decide (0 < l)
      | none => false)

/-- Source: `updateProduct` from `cmd/lifecycle-consumer/main.go`: recompute
`hasLength`, then `UPDATE products SET size_table = $2, status = $3,
scraped_at = CURRENT_TIMESTAMP, updated_at = CURRENT_TIMESTAMP` with
status `active` iff `hasLength`, else `rejected`. -/
def updateProduct (asin : String) (resp : Option SizeTable) : Effect :=
  Effect.dbUpdateProduct asin resp
    (if hasLengthTable resp then "active" else "rejected") true true

/-- Source: `publishProductCreated` from `cmd/lifecycle-consumer/main.go`: builds
the PRODUCT_CREATED payload with `quality_score = 3.0` and publishes it
with a DIRECT `XAdd` to `stream:product_lifecycle` — no outbox insert
appears in this function. -/
def publishProductCreated (_asin : String) (_resp : Option SizeTable) :
    List Effect :=
  [Effect.busAppend "stream:product_lifecycle" "PRODUCT_CREATED" (some 3)]

/-- The tail of `processMessage` once the product row's current status is
known: non-pending rows are skipped entirely; for a pending row the
product is updated and, iff `hasLength`, PRODUCT_CREATED is published. -/
def processValidatedMessage (asin : String) (status : String)
    (resp : Option SizeTable) : List Effect :=
  if status ≠ "pending" then []
  else
    updateProduct asin resp ::
      (if hasLengthTable resp then publishProductCreated asin resp else [])

/-- Modelled from the spec's words for comparison (claim C8): some size
in the returned table has a positive `length`. -/
def SpecHasLength (resp : Option SizeTable) : Prop :=
  ∃ st, resp = some st ∧
    ∃ p ∈ st.measurements, ∃ v, lookupA p.2 "length" = some v ∧ 0 < v

/-! ## Demonstration tables -/

/-- Scenario 6 payload from the spec. -/
def demoPayload : TablePayload :=
  ⟨["Größe", "Brustumfang", "Länge"], [["XL", "103 - 106", "76"]]⟩

/-- What `parseFullSizeTable` produces on `demoPayload`. -/
def demoTable : SizeTable :=
  ⟨["XL"], [("XL", [("chest", 106), ("length", 76)])], "cm"⟩

/-- A table whose only size has zero length and chest. -/
def zeroTable : SizeTable :=
  ⟨["M"], [("M", [("length", 0), ("chest", 0)])], "cm"⟩

/-- A table with one positive length. -/
def demoLengthTable : SizeTable :=
  ⟨["M"], [("M", [("length", 70)])], "cm"⟩

/-! ## Concrete evaluations of the embedded functions -/

example : parseNumPS "103 " = 103 := by decide
example : parseNum019 " 106" = 106 := by decide
example : parseValue019 "103 - 106" = 106 := by decide
example : parseValue019 "106 - 103" = 103 := by decide
example : parseNumPS "49,5" = mkRat 99 2 := by decide
example : parseNum019 "49,5" = mkRat 99 2 := by decide
example : parseNumPS "1,2,3" = 0 := by decide
example : parseNum019 "1,2,3" = mkRat 6 5 := by decide

example : normalizeLabel "Brustumfang" = "chest" := by decide
example : normalizeLabel "Länge" = "length" := by decide
example : measKey019 (lowerS "Länge") = "length" := by decide
example : measKey019 "material" = "" := by decide

example :
    parseFullSizeTable ⟨["Größe", "Brustumfang", "Länge"],
      [["XL", "103 - 106", "76"]]⟩ =
    some ⟨["XL"], [("XL", [("chest", 106), ("length", 76)])], "cm"⟩ := by
  decide

example :
    parseFullSizeTable ⟨["Größe", "S", "M"], [["Länge", "70", "72"]]⟩ =
    some ⟨["S", "M"], [("S", [("length", 70)]), ("M", [("length", 72)])],
      "cm"⟩ := by decide

example :
    parseJSTableData ⟨["Größe", "S"], [["M", "50"]]⟩ =
    some ⟨["M"], [("M", [("s", 50)])], "cm"⟩ := by decide

example :
    parseFullSizeTable ⟨["Größe", "Länge"], [["42", "70"]]⟩ = none := by
  decide

example :
    parseJSTableData ⟨["Größe", "Länge"], [["42", "70"]]⟩ =
    some ⟨[], [], "cm"⟩ := by decide

/-- The function decimalValue is the usual integer-plus-fraction
reading. -/
theorem decimalValue_eq (i f : List Char) :
    decimalValue i f =
      (digitsToNat i : ℚ) + (digitsToNat f : ℚ) / ((10 : ℚ) ^ f.length) := by
  have h10 : ((10 : ℚ) ^ f.length) ≠ 0 := by positivity
  rw [decimalValue, Rat.mkRat_eq_div]
  push_cast
  field_simp

/-! ## Lemmas about the association-list operations -/

theorem lookupA_setA {β : Type} (m : List (String × β)) (k : String) (v : β)
    (x : String) :
    lookupA (setA m k v) x = if k = x then some v else lookupA m x := by
  induction m with
  | nil => simp [setA, lookupA]
  | cons p ps ih =>
    by_cases h : p.1 = k
    · simp only [setA, if_pos h, lookupA]
      by_cases h2 : k = x
      · simp [h2]
      · have : ¬p.1 = x := by rw [h]; exact h2
        simp [h2, this, lookupA]
    · simp only [setA, if_neg h, lookupA]
      by_cases h2 : p.1 = x
      · have : ¬k = x := fun hk => h (by rw [h2, hk])
        simp [h2, this]
      · simp [h2, ih]

theorem mem_setA {β : Type} {q : String × β} {m : List (String × β)}
    {k : String} {v : β} (h : q ∈ setA m k v) : q = (k, v) ∨ q ∈ m := by
  induction m with
  | nil => simpa [setA] using h
  | cons p ps ih =>
    by_cases hp : p.1 = k
    · simp only [setA, if_pos hp] at h
      rcases List.mem_cons.mp h with h1 | h1
      · exact Or.inl h1
      · exact Or.inr (List.mem_cons_of_mem p h1)
    · simp only [setA, if_neg hp] at h
      rcases List.mem_cons.mp h with h1 | h1
      · exact Or.inr (h1 ▸ List.mem_cons_self p ps)
      · rcases ih h1 with h2 | h2
        · exact Or.inl h2
        · exact Or.inr (List.mem_cons_of_mem p h2)

theorem lookupA_mem {β : Type} {m : List (String × β)} {k : String}
    {inner : β} (h : lookupA m k = some inner) : (k, inner) ∈ m := by
  induction m with
  | nil => simp [lookupA] at h
  | cons p ps ih =>
    by_cases hp : p.1 = k
    · simp only [lookupA, if_pos hp] at h
      have : p = (k, inner) := by
        cases p; cases h; cases hp; rfl
      exact this ▸ List.mem_cons_self p ps
    · simp only [lookupA, if_neg hp] at h
      exact List.mem_cons_of_mem p (ih h)

theorem lookupA_setInner_isSome (m : Meas) (sz key : String) (v : ℚ)
    (x : String) :
    (lookupA (setInner m sz key v) x).isSome = (lookupA m x).isSome := by
  unfold setInner
  cases h : lookupA m sz with
  | none => rfl
  | some inner =>
    rw [lookupA_setA]
    by_cases hx : sz = x
    · subst hx; simp [h]
    · simp [hx]

/-- All stored measurement values are strictly positive. -/
def AllPos (m : Meas) : Prop := ∀ p ∈ m, ∀ q ∈ p.2, 0 < q.2

/-- The sizes list and the key set of the measurements map agree. -/
def KeysMatch (sizes : List String) (m : Meas) : Prop :=
  ∀ x, x ∈ sizes ↔ (lookupA m x).isSome = true

theorem keysMatch_nil : KeysMatch [] [] := by
  intro x; simp [lookupA]

theorem keysMatch_append {sizes : List String} {m : Meas}
    (h : KeysMatch sizes m) (s : String) :
    KeysMatch (sizes ++ [s]) (setA m s []) := by
  intro x
  rw [List.mem_append, List.mem_singleton, lookupA_setA]
  by_cases hx : s = x
  · simp [hx]
  · have : ¬x = s := fun hxs => hx hxs.symm
    simp [hx, this, h x]

theorem keysMatch_setInner {sizes : List String} {m : Meas}
    (h : KeysMatch sizes m) (sz key : String) (v : ℚ) :
    KeysMatch sizes (setInner m sz key v) := by
  intro x
  rw [lookupA_setInner_isSome]
  exact h x

theorem allPos_nil : AllPos [] := by intro p hp; simp at hp

theorem allPos_setA_empty {m : Meas} (h : AllPos m) (s : String) :
    AllPos (setA m s []) := by
  intro p hp q hq
  rcases mem_setA hp with h1 | h1
  · subst h1; simp at hq
  · exact h p h1 q hq

theorem allPos_setInner {m : Meas} (h : AllPos m) {sz key : String} {v : ℚ}
    (hv : 0 < v) : AllPos (setInner m sz key v) := by
  unfold setInner
  cases hl : lookupA m sz with
  | none => exact h
  | some inner =>
    intro p hp q hq
    rcases mem_setA hp with h1 | h1
    · subst h1
      rcases mem_setA hq with h2 | h2
      · subst h2; exact hv
      · exact h (sz, inner) (lookupA_mem hl) q h2
    · exact h p h1 q hq

/-! ## Generic fold lemmas -/

theorem foldl_inv {α σ : Type} {P : σ → Prop} {f : σ → α → σ}
    (l : List α) (s : σ) (h0 : P s)
    (hstep : ∀ s' a, a ∈ l → P s' → P (f s' a)) : P (l.foldl f s) := by
  induction l generalizing s with
  | nil => exact h0
  | cons a l ih =>
    exact ih (f s a) (hstep s a (List.mem_cons_self a l) h0)
      (fun s' b hb => hstep s' b (List.mem_cons_of_mem a hb))

theorem foldl_fixed {α σ : Type} {f : σ → α → σ} (l : List α) (s : σ)
    (h : ∀ s' a, a ∈ l → f s' a = s') : l.foldl f s = s := by
  induction l generalizing s with
  | nil => rfl
  | cons a l ih =>
    rw [List.foldl_cons, h s a (List.mem_cons_self a l)]
    exact ih s (fun s' b hb => h s' b (List.mem_cons_of_mem a hb))

/-! ## Invariants of the parser branches -/

/-- Invariant carried by the (sizes, measurements) accumulator. -/
def Inv (p : List String × Meas) : Prop :=
  KeysMatch p.1 p.2 ∧ AllPos p.2

theorem inv_colsRowStep019 {S : List String} {m : Meas}
    (sizes : List String) (row : List String)
    (h : KeysMatch S m ∧ AllPos m) :
    KeysMatch S (colsRowStep019 sizes m row) ∧
      AllPos (colsRowStep019 sizes m row) := by
  match row with
  | [] => exact h
  | [c] => exact h
  | c0 :: c1 :: rest =>
    simp only [colsRowStep019]
    split
    · exact h
    · refine foldl_inv (P := fun m => KeysMatch S m ∧ AllPos m) _ _ h ?_
      intro m' a _ hm'
      dsimp only
      split
      · exact ⟨keysMatch_setInner hm'.1 _ _ _,
          allPos_setInner hm'.2 (by assumption)⟩
      · exact hm'

theorem inv_rowsRowStep019 (mtypes : List String)
    {acc : List String × Meas} (row : List String) (h : Inv acc) :
    Inv (rowsRowStep019 mtypes acc row) := by
  match row with
  | [] => exact h
  | [c] => exact h
  | c0 :: c1 :: rest =>
    simp only [rowsRowStep019]
    split
    · refine foldl_inv (P := fun m =>
        KeysMatch (acc.1 ++ [trimS c0]) m ∧ AllPos m) _ _
        ⟨keysMatch_append h.1 _, allPos_setA_empty h.2 _⟩ ?_
      intro m' a _ hm'
      dsimp only
      split
      · exact hm'
      · split
        · exact ⟨keysMatch_setInner hm'.1 _ _ _,
            allPos_setInner hm'.2 (by assumption)⟩
        · exact hm'
    · exact h

theorem inv_horizRowStepPS (mlabels : List String)
    {acc : List String × Meas} (row : List String) (h : Inv acc) :
    Inv (horizRowStepPS mlabels acc row) := by
  match row with
  | [] => exact h
  | c0 :: rest =>
    simp only [horizRowStepPS]
    split
    · refine foldl_inv (P := fun m =>
        KeysMatch (acc.1 ++ [trimS c0]) m ∧ AllPos m) _ _
        ⟨keysMatch_append h.1 _, allPos_setA_empty h.2 _⟩ ?_
      intro m' a _ hm'
      dsimp only
      split
      · exact ⟨keysMatch_setInner hm'.1 _ _ _,
          allPos_setInner hm'.2 (by assumption)⟩
      · exact hm'
    · exact h

theorem inv_vertRowStepPS {S : List String} {m : Meas} (start : ℕ)
    (sizes : List String) (row : List String)
    (h : KeysMatch S m ∧ AllPos m) :
    KeysMatch S (vertRowStepPS start sizes m row) ∧
      AllPos (vertRowStepPS start sizes m row) := by
  unfold vertRowStepPS
  split
  · exact h
  · refine foldl_inv (P := fun m => KeysMatch S m ∧ AllPos m) _ _ h ?_
    intro m' a _ hm'
    dsimp only
    split
    · exact ⟨keysMatch_setInner hm'.1 _ _ _,
        allPos_setInner hm'.2 (by assumption)⟩
    · exact hm'

theorem inv_initSizes019 (headers : List String) :
    Inv (initSizes019 headers) := by
  apply foldl_inv _ _ ⟨keysMatch_nil, allPos_nil⟩
  intro acc h _ hacc
  dsimp only
  split
  · exact ⟨keysMatch_append hacc.1 _, allPos_setA_empty hacc.2 _⟩
  · exact hacc

theorem inv_vertSizesPS (headers : List String) (start : ℕ) :
    Inv (vertSizesPS headers start) := by
  apply foldl_inv _ _ ⟨keysMatch_nil, allPos_nil⟩
  intro acc h _ hacc
  dsimp only
  split
  · exact hacc
  · split
    · exact ⟨keysMatch_append hacc.1 _, allPos_setA_empty hacc.2 _⟩
    · exact hacc

theorem inv_parse019Core (t : TablePayload) :
    KeysMatch (parse019Core t).sizes (parse019Core t).measurements ∧
      AllPos (parse019Core t).measurements ∧
      (parse019Core t).unit = "cm" := by
  unfold parse019Core
  split
  · have h0 := inv_initSizes019 t.headers
    have h := foldl_inv (P := fun m =>
        KeysMatch (initSizes019 t.headers).1 m ∧ AllPos m)
      (f := colsRowStep019 (initSizes019 t.headers).1)
      t.rows (initSizes019 t.headers).2 ⟨h0.1, h0.2⟩
      (fun m' row _ hm' =>
        inv_colsRowStep019 (initSizes019 t.headers).1 row hm')
    exact ⟨h.1, h.2, rfl⟩
  · have h := foldl_inv (P := Inv)
      (f := rowsRowStep019 ((t.headers.drop 1).map
        (fun h => measKey019 (lowerS h))))
      t.rows ([], []) ⟨keysMatch_nil, allPos_nil⟩
      (fun acc row _ hacc => inv_rowsRowStep019 _ row hacc)
    exact ⟨h.1, h.2, rfl⟩

theorem inv_psCore (t : TablePayload) :
    KeysMatch (psCore t).sizes (psCore t).measurements ∧
      AllPos (psCore t).measurements ∧ (psCore t).unit = "cm" := by
  unfold psCore
  split
  · have h := foldl_inv (P := Inv)
      (f := horizRowStepPS (t.headers.map normalizeLabel))
      t.rows ([], []) ⟨keysMatch_nil, allPos_nil⟩
      (fun acc row _ hacc => inv_horizRowStepPS _ row hacc)
    exact ⟨h.1, h.2, rfl⟩
  · have h0 := inv_vertSizesPS t.headers (sizeColStartPS t.headers)
    have h := foldl_inv (P := fun m =>
        KeysMatch (vertSizesPS t.headers (sizeColStartPS t.headers)).1 m ∧
          AllPos m)
      (f := vertRowStepPS (sizeColStartPS t.headers)
        (vertSizesPS t.headers (sizeColStartPS t.headers)).1)
      t.rows (vertSizesPS t.headers (sizeColStartPS t.headers)).2
      ⟨h0.1, h0.2⟩
      (fun m' row _ hm' => inv_vertRowStepPS _ _ row hm')
    exact ⟨h.1, h.2, rfl⟩

theorem parseFullSizeTable_some {t : TablePayload} {st : SizeTable}
    (h : parseFullSizeTable t = some st) : st = parse019Core t := by
  unfold parseFullSizeTable at h
  split_ifs at h
  simp_all

theorem parseJSTableData_some {t : TablePayload} {st : SizeTable}
    (h : parseJSTableData t = some st) : st = psCore t := by
  unfold parseJSTableData at h
  split_ifs at h
  simp_all

/-! ## Origin of the produced size labels (claim C6) -/

theorem initSizes019_origin (headers : List String) :
    ∀ x ∈ (initSizes019 headers).1, x ∈ (headers.drop 1).map trimS := by
  unfold initSizes019
  refine foldl_inv (P := fun acc : List String × Meas =>
      ∀ x ∈ acc.1, x ∈ (headers.drop 1).map trimS) _ _ ?_ ?_
  · intro x hx; simp at hx
  · intro acc h hmem hacc
    dsimp only
    split
    · intro x hx
      rcases List.mem_append.mp hx with h1 | h1
      · exact hacc x h1
      · rw [List.mem_singleton] at h1
        subst h1
        exact List.mem_map_of_mem trimS hmem
    · exact hacc

theorem rows019_origin (mtypes : List String) (rows : List (List String)) :
    ∀ x ∈ (rows.foldl (rowsRowStep019 mtypes) ([], [])).1,
      ∃ row ∈ rows, x = trimS (headCell row) := by
  refine foldl_inv (P := fun acc : List String × Meas =>
      ∀ x ∈ acc.1, ∃ row ∈ rows, x = trimS (headCell row)) _ _ ?_ ?_
  · intro x hx; simp at hx
  · intro acc row hrow hacc
    match row with
    | [] => exact hacc
    | [c] => exact hacc
    | c0 :: c1 :: rest =>
      simp only [rowsRowStep019]
      split
      · intro x hx
        rcases List.mem_append.mp hx with h1 | h1
        · exact hacc x h1
        · rw [List.mem_singleton] at h1
          exact ⟨c0 :: c1 :: rest, hrow, by simpa [headCell] using h1⟩
      · exact hacc

theorem horizPS_origin (mlabels : List String) (rows : List (List String)) :
    ∀ x ∈ (rows.foldl (horizRowStepPS mlabels) ([], [])).1,
      ∃ row ∈ rows, x = trimS (headCell row) := by
  refine foldl_inv (P := fun acc : List String × Meas =>
      ∀ x ∈ acc.1, ∃ row ∈ rows, x = trimS (headCell row)) _ _ ?_ ?_
  · intro x hx; simp at hx
  · intro acc row hrow hacc
    match row with
    | [] => exact hacc
    | c0 :: rest =>
      simp only [horizRowStepPS]
      split
      · intro x hx
        rcases List.mem_append.mp hx with h1 | h1
        · exact hacc x h1
        · rw [List.mem_singleton] at h1
          exact ⟨c0 :: rest, hrow, by simpa [headCell] using h1⟩
      · exact hacc

theorem vertSizesPS_origin (headers : List String) (start : ℕ) :
    ∀ x ∈ (vertSizesPS headers start).1, x ∈ headers.map trimS := by
  unfold vertSizesPS
  refine foldl_inv (P := fun acc : List String × Meas =>
      ∀ x ∈ acc.1, x ∈ headers.map trimS) _ _ ?_ ?_
  · intro x hx; simp at hx
  · intro acc h hmem hacc
    dsimp only
    split
    · exact hacc
    · split
      · intro x hx
        rcases List.mem_append.mp hx with h1 | h1
        · exact hacc x h1
        · rw [List.mem_singleton] at h1
          subst h1
          exact List.mem_map_of_mem trimS (List.drop_subset start headers hmem)
      · exact hacc

theorem rows019_skipped (t : TablePayload)
    (hr : ∀ row ∈ t.rows,
      row.length < 2 ∨ isSizeLabel (trimS (headCell row)) = false)
    (mtypes : List String) :
    t.rows.foldl (rowsRowStep019 mtypes) ([], []) = ([], []) := by
  refine foldl_fixed _ _ ?_
  intro acc row hrow
  match row with
  | [] => rfl
  | [c] => rfl
  | c0 :: c1 :: rest =>
    rcases hr (c0 :: c1 :: rest) hrow with h | h
    · simp at h; omega
    · simp only [rowsRowStep019]
      rw [if_neg]
      simp only [headCell] at h
      simp [h]

/-! ## Claim C9 -/

/-- C9: whenever one of the two size-table parsers produces a table, the
`sizes` list and the key set of the `measurements` map agree exactly
(every size label is a key and every key is a size label), and the unit
carries the default `"cm"`. -/
theorem c9_sizes_match_measurements : ∀ (t : TablePayload) (st : SizeTable),
    parseFullSizeTable t = some st ∨ parseJSTableData t = some st →
    (∀ s, s ∈ st.sizes ↔ (lookupA st.measurements s).isSome = true) ∧
      st.unit = "cm" := by
  intro t st h
  rcases h with h | h
  · have e := parseFullSizeTable_some h
    subst e
    exact ⟨(inv_parse019Core t).1, (inv_parse019Core t).2.2⟩
  · have e := parseJSTableData_some h
    subst e
    exact ⟨(inv_psCore t).1, (inv_psCore t).2.2⟩

/-- C9 witness at the spec's Scenario-6 table. -/
theorem c9_witness :
    ("XL" ∈ demoTable.sizes ↔
      (lookupA demoTable.measurements "XL").isSome = true) ∧
      demoTable.unit = "cm" :=
  ⟨(c9_sizes_match_measurements demoPayload demoTable
      (Or.inl (by decide))).1 "XL",
   (c9_sizes_match_measurements demoPayload demoTable
      (Or.inl (by decide))).2⟩

/-! ## Claim C10 -/

/-- C10: every measurement value stored in a table produced by either
parser is strictly positive — cells whose numeric parse yields zero or
fails are never entered into the measurements map. -/
theorem c10_parser_values_positive : ∀ (t : TablePayload) (st : SizeTable),
    parseFullSizeTable t = some st ∨ parseJSTableData t = some st →
    ∀ p ∈ st.measurements, ∀ q ∈ p.2, 0 < q.2 := by
  intro t st h
  rcases h with h | h
  · have e := parseFullSizeTable_some h
    subst e
    exact (inv_parse019Core t).2.1
  · have e := parseJSTableData_some h
    subst e
    exact (inv_psCore t).2.1

/-- C10 witness at the spec's Scenario-6 table. -/
theorem c10_witness : 0 < (76 : ℚ) :=
  c10_parser_values_positive demoPayload demoTable (Or.inl (by decide))
    ("XL", [("chest", 106), ("length", 76)]) (by decide)
    ("length", 76) (by decide)

/-! ## Claim C6 -/

/-- C6 counterexample: for the payload with headers `["Größe", "S"]` and
data row `["M", "50"]`, a header cell after index 0 matches the size-label
lexicon, so by the claimed detection rule the parser must use the
columns-are-sizes orientation, whose size labels come from the header
row. `parseJSTableData` instead keys its detection on the FIRST DATA ROW
(`hasSizeLabels`), picks the rows-are-sizes layout, and outputs the size
`"M"` — which is not a header cell. -/
theorem c6_counterexample :
    ((⟨["Größe", "S"], [["M", "50"]]⟩ : TablePayload).headers.drop 1).any
        (fun h => isSizeLabel h) = true ∧
    (parseJSTableData ⟨["Größe", "S"], [["M", "50"]]⟩).map
        (fun st => st.sizes) = some ["M"] ∧
    ¬ "M" ∈ (["Größe", "S"].map trimS) := by
  refine ⟨by decide, by decide, by decide⟩

/-- C6 (amended): `parseFullSizeTable` (part_019) follows the claimed
rule — a size-label header cell after index 0 selects columns-are-sizes
(all produced sizes are trimmed header cells after index 0); otherwise
rows-are-sizes is used (all produced sizes are trimmed first cells of
data rows), and a table matching neither (no size-label header after
index 0 and no data row of ≥ 2 cells with a size-label first cell) parses
to the empty result `none`. `parseJSTableData` (product_scraper.go)
instead scans every cell of the FIRST DATA ROW: on a match it uses
rows-are-sizes (sizes are trimmed first cells of rows), otherwise
columns-are-sizes (sizes are trimmed header cells). -/
theorem c6_detection_amended : ∀ t : TablePayload,
    (colsDetect t = true → ∀ st, parseFullSizeTable t = some st →
      ∀ s ∈ st.sizes, s ∈ (t.headers.drop 1).map trimS) ∧
    (colsDetect t = false → ∀ st, parseFullSizeTable t = some st →
      ∀ s ∈ st.sizes, ∃ row ∈ t.rows, s = trimS (headCell row)) ∧
    (colsDetect t = false →
      (∀ row ∈ t.rows,
        row.length < 2 ∨ isSizeLabel (trimS (headCell row)) = false) →
      parseFullSizeTable t = none) ∧
    (psDetect t = true → ∀ st, parseJSTableData t = some st →
      ∀ s ∈ st.sizes, ∃ row ∈ t.rows, s = trimS (headCell row)) ∧
    (psDetect t = false → ∀ st, parseJSTableData t = some st →
      ∀ s ∈ st.sizes, s ∈ t.headers.map trimS) := by
  intro t
  refine ⟨?_, ?_, ?_, ?_, ?_⟩
  · intro hc st hst s hs
    have e := parseFullSizeTable_some hst
    subst e
    have hsz : (parse019Core t).sizes = (initSizes019 t.headers).1 := by
      unfold parse019Core
      rw [if_pos hc]
    rw [hsz] at hs
    exact initSizes019_origin t.headers s hs
  · intro hc st hst s hs
    have e := parseFullSizeTable_some hst
    subst e
    have hsz : (parse019Core t).sizes =
        (t.rows.foldl (rowsRowStep019
          ((t.headers.drop 1).map (fun h => measKey019 (lowerS h))))
          ([], [])).1 := by
      unfold parse019Core
      rw [if_neg]
      simp [hc]
    rw [hsz] at hs
    exact rows019_origin _ t.rows s hs
  · intro hc hr
    unfold parseFullSizeTable
    have hsz : (parse019Core t).sizes = [] := by
      unfold parse019Core
      rw [if_neg (by simp [hc])]
      dsimp only
      rw [rows019_skipped t hr]
    split_ifs with h1 h2 h3
    · rfl
    · rfl
    · rfl
    · exact absurd (by rw [hsz]; rfl) h3
  · intro hp st hst s hs
    have e := parseJSTableData_some hst
    subst e
    have hsz : (psCore t).sizes =
        (t.rows.foldl (horizRowStepPS (t.headers.map normalizeLabel))
          ([], [])).1 := by
      unfold psCore
      rw [if_pos hp]
    rw [hsz] at hs
    exact horizPS_origin _ t.rows s hs
  · intro hp st hst s hs
    have e := parseJSTableData_some hst
    subst e
    have hsz : (psCore t).sizes =
        (vertSizesPS t.headers (sizeColStartPS t.headers)).1 := by
      unfold psCore
      rw [if_neg (by simp [hp])]
    rw [hsz] at hs
    exact vertSizesPS_origin t.headers _ s hs

/-- C6 witness: the no-match payload parses to `none`, and in a payload
whose second header is `"S"` the rule's columns-are-sizes conclusion
holds for `parseFullSizeTable`. -/
theorem c6_witness :
    parseFullSizeTable ⟨["Größe", "Länge"], [["42", "70"]]⟩ = none ∧
    "S" ∈ ((⟨["Größe", "S", "M"], [["Länge", "70", "72"]]⟩ :
      TablePayload).headers.drop 1).map trimS := by
  constructor
  · exact (c6_detection_amended ⟨["Größe", "Länge"], [["42", "70"]]⟩).2.2.1
      (by decide) (by decide)
  · exact (c6_detection_amended
        ⟨["Größe", "S", "M"], [["Länge", "70", "72"]]⟩).1 (by decide)
      ⟨["S", "M"], [("S", [("length", 70)]), ("M", [("length", 72)])], "cm"⟩
      (by decide) "S" (by decide)

/-! ## Claim C1 -/

/-- C1 counterexample: the numeric-parsing routine of
`internal/scraper/product_scraper.go` parses the range cell
`"103 - 106"` to the AVERAGE `104.5 = 209/2` of the two bounds — not to
`max(103, 106) = 106` as claimed. -/
theorem c1_counterexample :
    parseValuePS "103 - 106" = mkRat 209 2 ∧
      parseValuePS "103 - 106" ≠ 106 := by
  have hc : hasChar "103 - 106" '-' = true := by decide
  have hs : splitChar "103 - 106" '-' = ["103 ", " 106"] := by decide
  have h1 : parseNumPS "103 " = 103 := by decide
  have h2 : parseNumPS " 106" = 106 := by decide
  have h : parseValuePS "103 - 106" = mkRat 209 2 := by
    simp only [parseValuePS, hc, hs, h1, h2, if_true]
    rw [if_pos (by norm_num)]
    rw [Rat.mkRat_eq_div]
    norm_num
  exact ⟨h, by rw [h]; decide⟩

/-- C1 (amended): the two `parseValue` routines treat a range cell
differently. The part_019 routine returns the numeric parse of the part
after the dash whenever that is positive (the larger bound for an
ascending range `a - b` with `a < b`, hence `b`), and the first part's
parse otherwise. The `product_scraper.go` routine returns the average
`(a + b) / 2` whenever both parts parse positive. -/
theorem c1_range_parsing : ∀ (t p1 p2 : String),
    hasChar t '-' = true → splitChar t '-' = [p1, p2] →
    (0 < parseNum019 p2 → parseValue019 t = parseNum019 p2) ∧
    (0 < parseNumPS p1 → 0 < parseNumPS p2 →
      parseValuePS t = (parseNumPS p1 + parseNumPS p2) / 2) := by
  intro t p1 p2 hc hs
  constructor
  · intro h2
    simp only [parseValue019, hc, hs, if_true]
    rw [if_pos h2]
  · intro h1 h2
    simp only [parseValuePS, hc, hs, if_true]
    rw [if_pos ⟨h1, h2⟩]

/-- C1 witness at the range cell from the spec's Scenario 6. -/
theorem c1_witness :
    parseValue019 "103 - 106" = parseNum019 " 106" ∧
    parseValuePS "103 - 106" = (parseNumPS "103 " + parseNumPS " 106") / 2 :=
  ⟨(c1_range_parsing "103 - 106" "103 " " 106" (by decide) (by decide)).1
      (by decide),
   (c1_range_parsing "103 - 106" "103 " " 106" (by decide) (by decide)).2
      (by decide) (by decide)⟩

/-! ## Claim C4 -/

theorem gateAccepts_eq (st : Option SizeTable) :
    gateAccepts st = ValidateSizeTable st := by
  unfold gateAccepts extractCompleteProductGate
  match st with
  | none => rfl
  | some st2 =>
    dsimp only
    cases h : ValidateSizeTable (some st2) <;> simp [h]

/-- C4 counterexample: a table whose only size carries `length = 0` and
`chest = 0` is NOT qualifying (no size has a positive length and chest),
yet `ValidateSizeTable` — which checks only key presence — returns true
and the extractor accepts the product instead of failing with
NO_QUALIFYING_TABLE. -/
theorem c4_counterexample :
    ValidateSizeTable (some zeroTable) = true ∧
    specQualifying zeroTable = false ∧
    gateAccepts (some zeroTable) = true := by
  refine ⟨by decide, by decide, by decide⟩

/-- C4 (amended): the extractor accepts a (non-nil) table iff the sizes
list and the measurements map are non-empty and at least one size label
has both a `length` and a `chest` entry PRESENT; the positivity of those
entries is not checked. (On tables whose stored values are all positive —
which is what the parsers produce, claim C10 — presence and positivity
coincide, so acceptance then matches the spec's qualifying predicate.) -/
theorem c4_gate_characterization : ∀ st : SizeTable,
    gateAccepts (some st) = true ↔
      (st.sizes ≠ [] ∧ st.measurements ≠ [] ∧
        ∃ p ∈ st.measurements,
          (lookupA p.2 "length").isSome = true ∧
          (lookupA p.2 "chest").isSome = true) := by
  intro st
  rw [gateAccepts_eq]
  rcases st with ⟨sizes, meas, u⟩
  simp only [ValidateSizeTable]
  by_cases h1 : sizes.isEmpty
  · simp [h1, List.isEmpty_iff.mp h1]
  · by_cases h2 : meas.isEmpty
    · simp [h1, h2, List.isEmpty_iff.mp h2]
    · simp only [h1, h2, Bool.or_self, Bool.false_or, if_neg,
        Bool.false_eq_true, not_false_eq_true, List.any_eq_true,
        Bool.and_eq_true]
      constructor
      · rintro ⟨p, hp, hl, hc⟩
        exact ⟨by simpa [List.isEmpty_iff] using h1,
          by simpa [List.isEmpty_iff] using h2, p, hp, hl, hc⟩
      · rintro ⟨-, -, p, hp, hl, hc⟩
        exact ⟨p, hp, hl, hc⟩

/-! ## Claim C5 -/

theorem wrap64_small {z : ℤ} (h0 : 0 ≤ z) (h : z < 2 ^ 63) : wrap64 z = z := by
  unfold wrap64
  rw [Int.emod_eq_of_lt (by omega) (by norm_num; omega)]
  omega

theorem backoffSeconds_le_300 (n : ℕ) : backoffSeconds n ≤ 300 := by
  unfold backoffSeconds
  dsimp only
  split
  · exact le_refl 300
  · omega

theorem backoffSeconds_small {n : ℕ} (h : n ≤ 8) :
    backoffSeconds n = min 300 (2 ^ n) := by
  have hlt : (2 : ℤ) ^ n < 2 ^ 63 :=
    pow_lt_pow_right₀ (by norm_num) (by omega)
  have hnn : (0 : ℤ) ≤ 2 ^ n := by positivity
  unfold backoffSeconds
  dsimp only
  rw [wrap64_small hnn hlt]
  rcases le_or_lt ((2 : ℤ) ^ n) 300 with hle | hgt
  · rw [if_neg (by omega), min_eq_right hle]
  · rw [if_pos hgt, min_eq_left (le_of_lt hgt)]

/-- C5: `MarkFailed` increments the retry count; when the new count has
reached `MAX_RETRIES = 5` the status becomes `dead_letter`, otherwise the
status becomes `failed` with `next_retry_at = now + min 300 (2 ^ count)`
seconds computed from the NEW count; and the backoff added to `now` never
exceeds 300 seconds for any retry count. -/
theorem c5_mark_failed : ∀ (rc : ℕ) (now : ℤ) (msg : String),
    (MarkFailed rc now msg).retryCount = rc + 1 ∧
    (MaxRetryCount ≤ rc + 1 →
      (MarkFailed rc now msg).status = OutboxStatusDeadLetter) ∧
    (rc + 1 < MaxRetryCount →
      (MarkFailed rc now msg).status = OutboxStatusFailed ∧
      (MarkFailed rc now msg).nextRetryAt = now + min 300 (2 ^ (rc + 1))) ∧
    (MarkFailed rc now msg).nextRetryAt ≤ now + 300 := by
  intro rc now msg
  unfold MarkFailed calculateNextRetryTime
  refine ⟨rfl, ?_, ?_, ?_⟩
  · intro h
    dsimp only
    rw [if_pos h]
  · intro h
    dsimp only
    rw [if_neg (by omega)]
    refine ⟨rfl, ?_⟩
    rw [backoffSeconds_small (by unfold MaxRetryCount at h; omega)]
  · dsimp only
    have := backoffSeconds_le_300 (rc + 1)
    omega

/-- C5 witness: the fifth failure dead-letters the event; the second
failure schedules the retry `min 300 (2 ^ 2) = 4` seconds out. -/
theorem c5_witness :
    (MarkFailed 4 0 "bus down").status = OutboxStatusDeadLetter ∧
    (MarkFailed 1 0 "bus down").nextRetryAt = 0 + min 300 (2 ^ 2) :=
  ⟨(c5_mark_failed 4 0 "bus down").2.1 (by norm_num [MaxRetryCount]),
   ((c5_mark_failed 1 0 "bus down").2.2.1 (by norm_num [MaxRetryCount])).2⟩

/-! ## Claim C7 -/

/-- C7 (code bug): `InsertWithTx` sets the claimed defaults — fresh id,
`status = pending`, `next_retry_at = now`, default `target_stream` — but
performs NO validation of `aggregate_type`, `aggregate_id`, `event_type`
or `payload`. An event whose `aggregate_type` is the empty string is
inserted without error (the empty string satisfies `VARCHAR NOT NULL`),
although the repository's own test
(`outbox_test.go`, "validate required fields" / "missing aggregate type")
asserts that this insert must fail. -/
theorem c7_insert_accepts_empty_fields :
    InsertWithTx "id-1" 0
      ⟨none, "", "B003TEST", "NEW_PRODUCT_DETECTED", some "p", "", "", 0,
        none⟩ =
    some ⟨"id-1", "", "B003TEST", "NEW_PRODUCT_DETECTED", "p",
      "stream:product_lifecycle", "pending", 0, 0, 0⟩ := by
  decide

/-! ## Claim C2 -/

/-- C2 counterexample: starting from an empty store, run the worker's
per-product persistence with the product upsert and the link insert
succeeding and the outbox append failing. Afterwards the product and the
job-product link are persisted but no outbox event is — neither "all
three take effect" nor "none of the three takes effect" holds, so the
three writes are not atomic. -/
theorem c2_counterexample :
    ¬ (("B0000000AA" ∈ c2FailState.products ∧
        ("job-1", "B0000000AA") ∈ c2FailState.jobLinks ∧
        "NEW_PRODUCT_DETECTED" ∈ c2FailState.outbox) ∨
       (c2FailState.products = [] ∧ c2FailState.jobLinks = [] ∧
        c2FailState.outbox = [])) := by
  decide

/-- C2 (amended): the worker's three writes are three separate atomic
units, not one transaction — the product upsert and job-product link are
independent statements and only the `NEW_PRODUCT_DETECTED` outbox append
runs in a transaction (of its own). When the outbox append fails, the
already-performed upsert and link insert stay in place while the outbox
is unchanged; when the link insert fails, the upsert stays in place while
link and outbox are unchanged. -/
theorem c2_not_one_transaction : ∀ (db : WorkerDB) (jobId asin : String),
    (processProductWrites ⟨false, false, true⟩ db jobId asin).outbox =
        db.outbox ∧
    asin ∈ (processProductWrites ⟨false, false, true⟩ db jobId asin).products ∧
    (jobId, asin) ∈
      (processProductWrites ⟨false, false, true⟩ db jobId asin).jobLinks ∧
    asin ∈ (processProductWrites ⟨false, true, false⟩ db jobId asin).products ∧
    (processProductWrites ⟨false, true, false⟩ db jobId asin).jobLinks =
        db.jobLinks ∧
    (processProductWrites ⟨false, true, false⟩ db jobId asin).outbox =
        db.outbox := by
  intro db jobId asin
  refine ⟨?_, ?_, ?_, ?_, ?_, ?_⟩ <;>
    simp only [processProductWrites, saveCompleteProduct,
      publishNewProductDetected, upsertProductRow, insertJobLink] <;>
    by_cases h1 : asin ∈ db.products <;>
    by_cases h2 : (jobId, asin) ∈ db.jobLinks <;>
    simp [h1, h2]

/-! ## Claims C3 and C8 -/

/-- C3 counterexample: the lifecycle consumer, handling a pending product
whose size-chart table has a positive length, performs a DIRECT bus
append (`XAdd` of PRODUCT_CREATED) and no outbox write at all — so the
relay draining the outbox is not the only component appending to the
stream bus, and the consumer does not emit through the outbox. -/
theorem c3_counterexample :
    (processValidatedMessage "B0000000AA" "pending"
        (some demoLengthTable)).any isBusAppend = true ∧
    (processValidatedMessage "B0000000AA" "pending"
        (some demoLengthTable)).any isOutboxAppend = false := by
  refine ⟨by decide, by decide⟩

/-- C3 (amended): whenever the consumer emits PRODUCT_CREATED (i.e. the
table has a positive length), it publishes the event directly to
`stream:product_lifecycle` via `XAdd` with `quality_score = 3.0`, and
none of its effects is an outbox append; the outbox/relay path is not
used by this consumer, so the relay is not the sole writer to the bus. -/
theorem c3_consumer_publishes_directly :
    ∀ (asin : String) (resp : Option SizeTable),
    hasLengthTable resp = true →
    Effect.busAppend "stream:product_lifecycle" "PRODUCT_CREATED" (some 3) ∈
      processValidatedMessage asin "pending" resp ∧
    ∀ e ∈ processValidatedMessage asin "pending" resp,
      isOutboxAppend e = false := by
  intro asin resp h
  constructor
  · simp [processValidatedMessage, h, publishProductCreated]
  · intro e he
    have hne : ¬ (("pending" : String) ≠ "pending") := fun hn => hn rfl
    unfold processValidatedMessage at he
    rw [if_neg hne, h] at he
    simp only [if_true, publishProductCreated, List.mem_cons,
      List.mem_singleton, List.not_mem_nil, or_false] at he
    rcases he with he | he
    · subst he; rfl
    · subst he; rfl

/-- C3 witness at a concrete table with positive length. -/
theorem c3_witness :
    Effect.busAppend "stream:product_lifecycle" "PRODUCT_CREATED" (some 3) ∈
      processValidatedMessage "B0000000AA" "pending"
        (some demoLengthTable) :=
  (c3_consumer_publishes_directly "B0000000AA" (some demoLengthTable)
    (by decide)).1

theorem hasLengthTable_iff (resp : Option SizeTable) :
    hasLengthTable resp = true ↔ SpecHasLength resp := by
  unfold hasLengthTable SpecHasLength
  match resp with
  | none =>
    simp only [Bool.false_eq_true, false_iff]
    rintro ⟨st, h, -⟩
    cases h
  | some st =>
    simp only [List.any_eq_true]
    constructor
    · rintro ⟨p, hp, hf⟩
      refine ⟨st, rfl, p, hp, ?_⟩
      cases hl : lookupA p.2 "length" with
      | none => rw [hl] at hf; cases hf
      | some v =>
        rw [hl] at hf
        exact ⟨v, rfl, by simpa using hf⟩
    · rintro ⟨st2, heq, p, hp, v, hv, hpos⟩
      cases heq
      exact ⟨p, hp, by rw [hv]; simpa using hpos⟩

/-- C8: when the consumer handles a message for a product in the
pre-active (`pending`) state, it updates the product — writing the
returned size table, setting `scraped_at` and `updated_at`, and setting
the status to `active` when some size has a positive `length`
(`hasLength`) and to `rejected` otherwise — and it emits a
PRODUCT_CREATED event with `quality_score = 3.0` if and only if
`hasLength` holds. -/
theorem c8_pending_product_transition :
    ∀ (asin : String) (resp : Option SizeTable),
    (SpecHasLength resp →
      processValidatedMessage asin "pending" resp =
        [Effect.dbUpdateProduct asin resp "active" true true,
         Effect.busAppend "stream:product_lifecycle" "PRODUCT_CREATED"
           (some 3)]) ∧
    (¬ SpecHasLength resp →
      processValidatedMessage asin "pending" resp =
        [Effect.dbUpdateProduct asin resp "rejected" true true]) := by
  intro asin resp
  constructor
  · intro h
    have hb : hasLengthTable resp = true := (hasLengthTable_iff resp).mpr h
    simp [processValidatedMessage, updateProduct, publishProductCreated, hb]
  · intro h
    have hb : hasLengthTable resp = false := by
      cases hb : hasLengthTable resp
      · rfl
      · exact absurd ((hasLengthTable_iff resp).mp hb) h
    simp [processValidatedMessage, updateProduct, publishProductCreated, hb]

/-- C8 witness: a table with positive length activates the product and
publishes PRODUCT_CREATED; an absent table rejects it with no event. -/
theorem c8_witness :
    processValidatedMessage "B0000000AA" "pending" (some demoLengthTable) =
      [Effect.dbUpdateProduct "B0000000AA" (some demoLengthTable) "active"
        true true,
       Effect.busAppend "stream:product_lifecycle" "PRODUCT_CREATED"
        (some 3)] ∧
    processValidatedMessage "B0000000AA" "pending" none =
      [Effect.dbUpdateProduct "B0000000AA" none "rejected" true true] :=
  ⟨(c8_pending_product_transition "B0000000AA" (some demoLengthTable)).1
      ⟨demoLengthTable, rfl, ("M", [("length", 70)]), by decide, 70,
        by decide, by decide⟩,
   (c8_pending_product_transition "B0000000AA" none).2
      (by rintro ⟨st, h, -⟩; cases h)⟩

end SizeScraper
